import Mathlib

/-!
Shallow embedding of `scripts/plot_coverage.py`, the DeFuzz coverage-report
pipeline (loader, validator/sorter, metric deriver, report assembler).

Modelling conventions:
* A seed-metadata JSON object is a `SeedRecord` whose fields are all
  `Option`-valued — the script reads them with `dict.get(key, default)`,
  which becomes `Option.getD`.
* A metadata file's content is a `FileContent`: malformed JSON, or valid
  JSON that is either an object or some other JSON value (`5`, `[1, 2]`).
* Float percentages (`bp / 100.0`) are modelled as exact division in `ℚ`.
* Python's stable `list.sort(key=...)` is modelled by the stable insertion
  sort `sortByKey`; `sort` evaluates the key on every element, so a
  non-dict element makes `x.get` raise `AttributeError` (`asRecords`).
* Uncaught Python exceptions terminate the interpreter with exit code 1;
  `runMain` models `main`'s control flow, recording the exit code, whether
  per-seed metadata files were read, and the report (the data handed to
  the plotting calls) if one was produced.
-/

namespace DeFuzz

/-- Oracle verdict of a seed (spec §3). The script never reads this field;
it is carried so the spec-modelled bug-count deriver can be stated. -/
inductive Verdict
  | BUG
  | notBUG
  deriving DecidableEq, Repr

/-- A parsed seed-metadata JSON object. Every field may be absent: the
script accesses them via `meta.get(k, default)` (and `s['id']` where it
insists on presence). -/
structure SeedRecord where
  id : Option Int
  new_cov : Option Int
  cov_incr : Option Int
  depth : Option Int
  oracle_verdict : Option Verdict
  deriving DecidableEq, Repr

/-- A successfully decoded JSON document: a dict, or any other JSON value
(number, array, ...), which `json.load` happily returns. -/
inductive JsonVal
  | obj (r : SeedRecord)
  | nonObj
  deriving DecidableEq, Repr

/-- Content of one `metadata/*.json` file as seen by `json.load`. -/
inductive FileContent
  | malformed
  | valid (v : JsonVal)
  deriving DecidableEq, Repr

/-- Warning kinds. `ParseFailure` is the `print(...file=sys.stderr)`
diagnostic emitted by `load_seed_metadata`. `DuplicateId` and
`ConsistencyMismatch` come from the spec's taxonomy (§7) so that their
absence can be stated; the script has no code path emitting them. -/
inductive Warning
  | ParseFailure (fname : String)
  | DuplicateId (dupId : Int)
  | ConsistencyMismatch (derived_bp : Int) (global_bp : Int)
  deriving DecidableEq, Repr

/-- Python exceptions relevant to the script's control flow. -/
inductive PyError
  | fileNotFound
  | jsonDecodeError
  | attributeError
  deriving DecidableEq, Repr

/-- The `global_state.json` rollup record, fields read via `.get`. -/
structure GlobalState where
  last_allocated_id : Option Int
  total_coverage : Option Int
  deriving DecidableEq, Repr

/-- State of the `state/global_state.json` file on disk. -/
inductive GsFile
  | absent
  | unparsable
  | parsed (gs : GlobalState)
  deriving DecidableEq, Repr

/-- `load_global_state`: raises `FileNotFoundError` when the file is
missing; `json.load` raises `JSONDecodeError` when it is unparsable. -/
def load_global_state : GsFile → Except PyError GlobalState
  | .absent => .error .fileNotFound
  | .unparsable => .error .jsonDecodeError
  | .parsed gs => .ok gs

/-- The `for f in metadata_dir.glob("*.json")` loop of
`load_seed_metadata`: each file is parsed independently; a decode failure
prints a warning and continues; every successfully decoded value is
appended to `seeds` — whether or not it is a dict. Input is the glob
enumeration as an ordered list of (filename, content) pairs. -/
def collectCandidates : List (String × FileContent) → List JsonVal × List Warning
  | [] => ([], [])
  | (name, .malformed) :: rest =>
    ((collectCandidates rest).1, .ParseFailure name :: (collectCandidates rest).2)
  | (_, .valid v) :: rest =>
    (v :: (collectCandidates rest).1, (collectCandidates rest).2)

/-- Key evaluation of `seeds.sort(key=lambda x: x.get('id', 0))`: `sort`
computes the key for every element, so any non-dict element raises
`AttributeError` (`int`/`list` have no `.get`); otherwise all elements
are dicts. -/
def asRecords : List JsonVal → Option (List SeedRecord)
  | [] => some []
  | .obj r :: rest => (asRecords rest).map (r :: ·)
  | .nonObj :: _ => none

/-- Sort key `lambda x: x.get('id', 0)`. -/
def idKey (r : SeedRecord) : Int := r.id.getD 0

/-- One step of stable insertion: place `a` before the first element whose
key is not smaller (so equal-key elements that were already in the list
stay after `a`). -/
def insertByKey {α : Type} (key : α → Int) (a : α) : List α → List α
  | [] => [a]
  | b :: l => if key a ≤ key b then a :: b :: l else b :: insertByKey key a l

/-- Stable sort by an integer key, modelling Python's stable `list.sort`.
Two stable sorts by the same key agree on all inputs, so the choice of
insertion sort is immaterial. -/
def sortByKey {α : Type} (key : α → Int) : List α → List α
  | [] => []
  | a :: l => insertByKey key a (sortByKey key l)

/-- `load_seed_metadata` (dir-exists case): collect candidates with
per-file error recovery, then `seeds.sort(key=lambda x: x.get('id', 0))`.
A non-dict candidate makes the sort raise an uncaught `AttributeError`. -/
def load_seed_metadata (files : List (String × FileContent)) :
    Except PyError (List SeedRecord × List Warning) :=
  match asRecords (collectCandidates files).1 with
  | none => .error .attributeError
  | some rs => .ok (sortByKey idKey rs, (collectCandidates files).2)

/-- `basis_points_to_percent`: `bp / 100.0`, modelled exactly in `ℚ`. -/
def basis_points_to_percent (bp : Int) : ℚ := (bp : ℚ) / 100

/-- The y-values of the coverage-growth plot
(`[basis_points_to_percent(s.get('new_cov', 0)) for s in seeds]`). -/
def coverageGrowthValues (seeds : List SeedRecord) : List ℚ :=
  seeds.map (fun s => basis_points_to_percent (s.new_cov.getD 0))

/-- The y-values of the per-seed coverage-increase plot
(`[basis_points_to_percent(s.get('cov_incr', 0)) for s in seeds]`). -/
def coverageIncreaseValues (seeds : List SeedRecord) : List ℚ :=
  seeds.map (fun s => basis_points_to_percent (s.cov_incr.getD 0))

/-- `[s.get('depth', 0) for s in seeds]`. -/
def depthsOf (seeds : List SeedRecord) : List Int :=
  seeds.map (fun s => s.depth.getD 0)

/-- `unique_depths = sorted(set(depths)); depth_counts =
[depths.count(d) for d in unique_depths]` (plot_seed_lineage and the
dashboard): the distinct depth values in ascending order, each paired
with its multiplicity. -/
def depthHistogram (seeds : List SeedRecord) : List (Int × Nat) :=
  let ds := depthsOf seeds
  (sortByKey (fun d => d) ds.dedup).map (fun d => (d, ds.count d))

/-- `max(depths) if depths else 0`. -/
def maxDepth : List Int → Int
  | [] => 0
  | d :: ds => ds.foldl max d

/-- The scalar block of the summary dashboard (`plot_summary_dashboard`,
bottom-left panel). The dashboard reports the count of seeds with
positive coverage gain; it has no bug count. -/
structure Summary where
  total_seeds : Int
  final_coverage_percent : ℚ
  seeds_with_new_cov : Nat
  max_depth : Int
  initial_seeds : Nat
  mutated_seeds : Nat
  deriving DecidableEq, Repr

/-- Scalar rollups exactly as computed in `plot_summary_dashboard`:
`total_seeds = global_state.get('last_allocated_id', len(seeds))`,
`total_cov_pct` from `global_state.get('total_coverage', 0)`,
`nonzero_seeds = sum(1 for ci in cov_increases if ci > 0)`,
`max_depth = max(depths) if depths else 0`, and the `depth == 0` /
`depth > 0` counts. -/
def summaryOf (gs : GlobalState) (seeds : List SeedRecord) : Summary :=
  { total_seeds := gs.last_allocated_id.getD (seeds.length : Int)
  , final_coverage_percent := basis_points_to_percent (gs.total_coverage.getD 0)
  , seeds_with_new_cov :=
      ((coverageIncreaseValues seeds).filter (fun ci => decide (0 < ci))).length
  , max_depth := maxDepth (depthsOf seeds)
  , initial_seeds := ((depthsOf seeds).filter (fun d => d == 0)).length
  , mutated_seeds := ((depthsOf seeds).filter (fun d => decide (0 < d))).length }

/-- `seeds[-1].get('new_cov', 0)` converted to percent — the "Final
coverage" `main` prints from the last record in id order. -/
def finalCoverageOf (seeds : List SeedRecord) : ℚ :=
  basis_points_to_percent ((seeds.getLast?.map (fun s => s.new_cov.getD 0)).getD 0)

/-- The data `main` hands to the plotting layer once loading succeeds:
the plotted series, the histogram, the dashboard scalars, and the
accumulated load warnings. -/
structure Report where
  coverage_series : List (Int × ℚ)
  increase_series : List (Int × ℚ)
  depth_histogram : List (Int × Nat)
  summary : Summary
  warnings : List Warning
  deriving DecidableEq, Repr

/-- Assemble the report for a seed list whose records all carry an `id`
(the plots read `s['id']` directly; `runMain` only builds a report under
that guard, where `idKey` agrees with the stored id). -/
def reportOf (gs : GlobalState) (seeds : List SeedRecord) (ws : List Warning) : Report :=
  { coverage_series := seeds.map (fun s => (idKey s, basis_points_to_percent (s.new_cov.getD 0)))
  , increase_series := seeds.map (fun s => (idKey s, basis_points_to_percent (s.cov_incr.getD 0)))
  , depth_histogram := depthHistogram seeds
  , summary := summaryOf gs seeds
  , warnings := ws }

/-- Outcome of one run of `main`: the process exit code, whether any
per-seed metadata file was read, and the produced report, if any. -/
structure MainResult where
  exitCode : Nat
  seedFilesRead : Bool
  report : Option Report
  deriving DecidableEq, Repr

/-- Control flow of `main` after argument parsing: check the data dir
(exit 1), load global state (`FileNotFoundError` is caught and exits 1;
`JSONDecodeError` propagates and the interpreter exits 1) — both before
any per-seed file is read; load seed metadata (a missing metadata dir is
caught, an `AttributeError` from the sort propagates); exit 1 on zero
seeds; plotting reads `s['id']`, so a surviving record without an id
raises an uncaught `KeyError`; otherwise all plots are generated and the
process exits 0. -/
def runMain (dataDirExists : Bool) (gsf : GsFile) (metadataDirExists : Bool)
    (files : List (String × FileContent)) : MainResult :=
  if dataDirExists then
    match load_global_state gsf with
    | .error _ => ⟨1, false, none⟩
    | .ok gs =>
      if metadataDirExists then
        match load_seed_metadata files with
        | .error _ => ⟨1, true, none⟩
        | .ok (seeds, ws) =>
          if seeds.isEmpty then ⟨1, true, none⟩
          else if seeds.all (fun s => s.id.isSome) then
            ⟨0, true, some (reportOf gs seeds ws)⟩
          else ⟨1, true, none⟩
      else ⟨1, false, none⟩
  else ⟨1, false, none⟩

/-- Modelled from the spec: the cumulative bug-count deriver of §4.3 is
absent from the source (the script computes no bug series and never reads
`oracle_verdict`). Single left-to-right pass with accumulator `acc`; the
running total increments by 1 exactly at a `BUG` verdict and one value is
emitted per record. -/
def bugCountsFrom : List Verdict → Nat → List Nat
  | [], _ => []
  | .BUG :: rest, acc => (acc + 1) :: bugCountsFrom rest (acc + 1)
  | .notBUG :: rest, acc => acc :: bugCountsFrom rest acc

/-- Modelled from the spec: a record's verdict; records are produced with
an `oracle_verdict`, and a record without one is treated as not-BUG. -/
def verdictsOf (seeds : List SeedRecord) : List Verdict :=
  seeds.map (fun s => s.oracle_verdict.getD .notBUG)

/-- Modelled from the spec: `bug_series` pairs each seed id with the
cumulative bug count after that record (§6). -/
def bug_series (seeds : List SeedRecord) : List (Int × Nat) :=
  (seeds.map idKey).zip (bugCountsFrom (verdictsOf seeds) 0)

/-- Modelled from the spec: `summary.total_bugs`, the final value of the
cumulative bug series (§4.3: "Final value is the total bug count"). -/
def total_bugs (seeds : List SeedRecord) : Nat :=
  (bugCountsFrom (verdictsOf seeds) 0).getLast?.getD 0

/-- The successfully decoded JSON values of an enumeration, in order —
what the collection loop appends. -/
def decodedVals (files : List (String × FileContent)) : List JsonVal :=
  files.filterMap (fun nc =>
    match nc.2 with
    | .valid v => some v
    | .malformed => none)

/-- The dict records among a list of JSON values, in order. -/
def objsOf (l : List JsonVal) : List SeedRecord :=
  l.filterMap (fun v =>
    match v with
    | .obj r => some r
    | .nonObj => none)

/-- The dict records successfully decoded from an enumeration, in order. -/
def decodedRecords (files : List (String × FileContent)) : List SeedRecord :=
  objsOf (decodedVals files)

/-! Concrete inputs used by counterexamples and witnesses. -/

/-- A record with id 3 (first of a duplicate pair). -/
def recA : SeedRecord := ⟨some 3, some 1000, some 0, some 0, some .notBUG⟩

/-- A second, distinct record that also carries id 3. -/
def recB : SeedRecord := ⟨some 3, some 5000, some 100, some 1, some .BUG⟩

/-- A record that lacks the `id` field entirely. -/
def recNoId : SeedRecord := ⟨none, some 1000, none, none, none⟩

/-- Two well-formed files whose records share id 3. -/
def dupFiles : List (String × FileContent) :=
  [("a.json", .valid (.obj recA)), ("b.json", .valid (.obj recB))]

/-- The same two files in the opposite enumeration order. -/
def dupFilesRev : List (String × FileContent) :=
  [("b.json", .valid (.obj recB)), ("a.json", .valid (.obj recA))]

/-- One file whose record is missing `id`. -/
def noIdFiles : List (String × FileContent) :=
  [("n.json", .valid (.obj recNoId))]

/-- One file whose content is valid JSON but not an object (e.g. `5`). -/
def nonObjFiles : List (String × FileContent) :=
  [("m.json", .valid .nonObj)]

/-- The three records of the spec's concrete scenario (§8): ids 0, 1, 2,
cumulative coverage 1000, 5000, 7474 bp, verdicts not-BUG, BUG, BUG. -/
def scenarioSeeds : List SeedRecord :=
  [⟨some 0, some 1000, some 1000, some 0, some .notBUG⟩,
   ⟨some 1, some 5000, some 4000, some 1, some .BUG⟩,
   ⟨some 2, some 7474, some 2474, some 1, some .BUG⟩]

/-- A global state whose `last_allocated_id` (5) differs from any record
count it will be paired with. -/
def gsDemo : GlobalState := ⟨some 5, some 7474⟩

/-! Helper lemmas about the stable sort. -/

theorem perm_insertByKey {α : Type} (key : α → Int) (a : α) (l : List α) :
    (insertByKey key a l).Perm (a :: l) := by
  induction l with
  | nil => exact List.Perm.refl _
  | cons b l ih =>
    by_cases h : key a ≤ key b
    · simp [insertByKey, h]
    · simp only [insertByKey, h, if_false]
      exact (ih.cons b).trans (List.Perm.swap a b l)

theorem perm_sortByKey {α : Type} (key : α → Int) (l : List α) :
    (sortByKey key l).Perm l := by
  induction l with
  | nil => exact List.Perm.refl _
  | cons a l ih =>
    exact (perm_insertByKey key a (sortByKey key l)).trans (ih.cons a)

theorem pairwise_insertByKey {α : Type} {key : α → Int} {a : α} {l : List α}
    (h : l.Pairwise (fun x y => key x ≤ key y)) :
    (insertByKey key a l).Pairwise (fun x y => key x ≤ key y) := by
  induction l with
  | nil => simp [insertByKey]
  | cons b l ih =>
    rcases List.pairwise_cons.mp h with ⟨hb, hl⟩
    by_cases hab : key a ≤ key b
    · simp only [insertByKey, hab, if_true]
      refine List.pairwise_cons.mpr ⟨?_, h⟩
      intro x hx
      rcases List.mem_cons.mp hx with rfl | hx
      · exact hab
      · exact le_trans hab (hb x hx)
    · simp only [insertByKey, hab, if_false]
      refine List.pairwise_cons.mpr ⟨?_, ih hl⟩
      intro x hx
      rcases List.mem_cons.mp ((perm_insertByKey key a l).mem_iff.mp hx) with rfl | hx
      · exact le_of_lt (lt_of_not_le hab)
      · exact hb x hx

theorem pairwise_sortByKey {α : Type} (key : α → Int) (l : List α) :
    (sortByKey key l).Pairwise (fun x y => key x ≤ key y) := by
  induction l with
  | nil => simp [sortByKey]
  | cons a l ih => exact pairwise_insertByKey ih

theorem filter_insertByKey {α : Type} (key : α → Int) (k : Int) (a : α) (l : List α) :
    (insertByKey key a l).filter (fun x => key x == k) =
      if key a == k then a :: l.filter (fun x => key x == k)
      else l.filter (fun x => key x == k) := by
  induction l with
  | nil =>
    by_cases hak : key a = k
    · simp [insertByKey, List.filter, hak]
    · have hb : (key a == k) = false := by simpa using hak
      simp [insertByKey, List.filter, hb, hak]
  | cons b l ih =>
    by_cases hab : key a ≤ key b
    · simp [insertByKey, hab, List.filter_cons]
    · simp only [insertByKey, hab, if_false, List.filter_cons, ih]
      by_cases hak : key a = k
      · have hbk : ¬(key b = k) := by
          have := lt_of_not_le hab
          omega
        simp [hak, hbk]
      · by_cases hbk : key b = k <;> simp [hak, hbk]

theorem filter_sortByKey {α : Type} (key : α → Int) (k : Int) (l : List α) :
    (sortByKey key l).filter (fun x => key x == k) =
      l.filter (fun x => key x == k) := by
  induction l with
  | nil => rfl
  | cons a l ih =>
    rw [sortByKey, filter_insertByKey, ih, List.filter_cons]

/-! Helper lemmas about the collection loop and key evaluation. -/

theorem collectCandidates_fst (files : List (String × FileContent)) :
    (collectCandidates files).1 = decodedVals files := by
  induction files with
  | nil => rfl
  | cons nc rest ih =>
    rcases nc with ⟨name, c⟩
    cases c <;> simp [collectCandidates, decodedVals, List.filterMap_cons] <;>
      simpa [decodedVals] using ih

theorem collectCandidates_snd_parse (files : List (String × FileContent)) :
    ∀ w ∈ (collectCandidates files).2, ∃ n, w = Warning.ParseFailure n := by
  induction files with
  | nil => intro w hw; cases hw
  | cons nc rest ih =>
    rcases nc with ⟨name, c⟩
    cases c with
    | malformed =>
      intro w hw
      simp only [collectCandidates] at hw
      rcases List.mem_cons.mp hw with rfl | hw
      · exact ⟨name, rfl⟩
      · exact ih w hw
    | valid v =>
      simpa only [collectCandidates] using ih

theorem collectCandidates_snd_length (files : List (String × FileContent)) :
    (collectCandidates files).2.length =
      (files.filter (fun f => f.2 == FileContent.malformed)).length := by
  induction files with
  | nil => rfl
  | cons nc rest ih =>
    rcases nc with ⟨name, c⟩
    cases c <;> simp [collectCandidates, List.filter_cons, ih]

theorem mem_collectCandidates_of_valid {files : List (String × FileContent)}
    {name : String} {v : JsonVal} (h : (name, FileContent.valid v) ∈ files) :
    v ∈ (collectCandidates files).1 := by
  induction files with
  | nil => cases h
  | cons nc rest ih =>
    rcases nc with ⟨n2, c⟩
    rcases List.mem_cons.mp h with heq | hmem
    · cases heq
      simp [collectCandidates]
    · cases c with
      | malformed => simpa [collectCandidates] using ih hmem
      | valid v2 =>
        simp only [collectCandidates]
        exact List.mem_cons_of_mem _ (ih hmem)

theorem asRecords_eq_some {l : List JsonVal} {rs : List SeedRecord}
    (h : asRecords l = some rs) : l = rs.map JsonVal.obj := by
  induction l generalizing rs with
  | nil =>
    cases h
    rfl
  | cons v l ih =>
    cases v with
    | obj r =>
      simp only [asRecords, Option.map_eq_some'] at h
      rcases h with ⟨rs2, h2, rfl⟩
      simp [ih h2]
    | nonObj => cases h

theorem asRecords_eq_none_of_nonObj {l : List JsonVal}
    (h : JsonVal.nonObj ∈ l) : asRecords l = none := by
  induction l with
  | nil => cases h
  | cons v l ih =>
    rcases List.mem_cons.mp h with heq | hmem
    · rw [← heq]
      rfl
    · cases v with
      | obj r => simp [asRecords, ih hmem]
      | nonObj => rfl

theorem objsOf_map_obj (rs : List SeedRecord) :
    objsOf (rs.map JsonVal.obj) = rs := by
  induction rs with
  | nil => rfl
  | cons r rs ih => simp [objsOf, List.filterMap_cons] at ih ⊢; exact ih

/-- Shape of a successful `load_seed_metadata` run: all decoded values
were dicts, the result is their stable sort by the defaulted id key, and
the warnings are exactly the collection loop's. -/
theorem load_seed_metadata_ok {files : List (String × FileContent)}
    {rs : List SeedRecord} {ws : List Warning}
    (h : load_seed_metadata files = .ok (rs, ws)) :
    rs = sortByKey idKey (decodedRecords files) ∧
      ws = (collectCandidates files).2 := by
  unfold load_seed_metadata at h
  rcases hA : asRecords (collectCandidates files).1 with _ | rs0
  · rw [hA] at h
    cases h
  · rw [hA] at h
    have hmap := asRecords_eq_some hA
    have hvals : decodedVals files = rs0.map JsonVal.obj := by
      rw [← collectCandidates_fst, hmap]
    have hrecs : decodedRecords files = rs0 := by
      rw [decodedRecords, hvals, objsOf_map_obj]
    cases h
    exact ⟨by rw [hrecs], rfl⟩

/-! Counting lemmas for the depth histogram. -/

theorem sum_dedup_count (l : List Int) :
    ((l.dedup.map fun d => l.count d).sum = l.length) := by
  have h1 : l.dedup.toFinset.sum (fun d => l.count d) =
      (l.dedup.map fun d => l.count d).sum :=
    List.sum_toFinset _ (List.nodup_dedup l)
  have h2 : l.dedup.toFinset = l.toFinset :=
    List.toFinset.ext_iff.mpr fun x => List.mem_dedup
  rw [← h1, h2]
  exact List.sum_toFinset_count_eq_length l

/-! Lemmas about `maxDepth` (Python `max`). -/

theorem le_foldl_max (l : List Int) (a : Int) : a ≤ l.foldl max a := by
  induction l generalizing a with
  | nil => exact le_refl a
  | cons b l ih => exact le_trans (le_max_left a b) (ih (max a b))

theorem mem_le_foldl_max {l : List Int} {x : Int} (h : x ∈ l) (a : Int) :
    x ≤ l.foldl max a := by
  induction l generalizing a with
  | nil => cases h
  | cons b l ih =>
    rcases List.mem_cons.mp h with rfl | hmem
    · exact le_trans (le_max_right a x) (le_foldl_max l (max a x))
    · exact ih hmem (max a b)

theorem le_maxDepth_of_mem {ds : List Int} {d : Int} (h : d ∈ ds) :
    d ≤ maxDepth ds := by
  cases ds with
  | nil => cases h
  | cons d0 ds =>
    rcases List.mem_cons.mp h with rfl | hmem
    · exact le_foldl_max ds d
    · exact mem_le_foldl_max hmem d0

/-- Records with depth `0` and with positive depth partition the list
when every depth is nonnegative. -/
theorem filter_zero_add_filter_pos {ds : List Int} (h : ∀ d ∈ ds, 0 ≤ d) :
    (ds.filter (fun d => d == 0)).length +
      (ds.filter (fun d => decide (0 < d))).length = ds.length := by
  induction ds with
  | nil => rfl
  | cons d ds ih =>
    have hd : 0 ≤ d := h d (List.mem_cons_self d ds)
    have hrest : ∀ x ∈ ds, 0 ≤ x := fun x hx => h x (List.mem_cons_of_mem d hx)
    have ihh := ih hrest
    rcases lt_or_eq_of_le hd with hpos | hzero
    · have h0 : (d == 0) = false := by simpa using (by omega : ¬d = 0)
      have h1 : decide (0 < d) = true := by simpa using hpos
      simp [List.filter_cons, h0, h1]
      omega
    · have h0 : (d == 0) = true := by simpa using hzero.symm
      have h1 : decide (0 < d) = false := by simpa using (by omega : ¬0 < d)
      simp [List.filter_cons, h0, h1]
      omega

/-! Lemmas about the spec-modelled cumulative bug counter. -/

theorem bugCountsFrom_length (vs : List Verdict) (acc : Nat) :
    (bugCountsFrom vs acc).length = vs.length := by
  induction vs generalizing acc with
  | nil => rfl
  | cons v vs ih => cases v <;> simp [bugCountsFrom, ih]

theorem bugCountsFrom_get? (vs : List Verdict) (acc : Nat) (i : Nat)
    (h : i < vs.length) :
    (bugCountsFrom vs acc).get? i =
      some (acc + (vs.take (i + 1)).count Verdict.BUG) := by
  induction vs generalizing acc i with
  | nil => cases h
  | cons v vs ih =>
    cases i with
    | zero =>
      cases v <;> simp [bugCountsFrom, List.count_cons]
    | succ i =>
      have h2 : i < vs.length := by
        simp only [List.length_cons] at h
        omega
      cases v with
      | BUG =>
        have step := ih (acc + 1) i h2
        simp only [bugCountsFrom, List.get?_cons_succ, step,
          List.take_succ_cons, List.count_cons, Option.some.injEq]
        simp
        omega
      | notBUG =>
        have step := ih acc i h2
        simp only [bugCountsFrom, List.get?_cons_succ, step,
          List.take_succ_cons, List.count_cons, Option.some.injEq]
        simp

theorem bugCountsFrom_chain (vs : List Verdict) (acc : Nat) :
    List.Chain (· ≤ ·) acc (bugCountsFrom vs acc) := by
  induction vs generalizing acc with
  | nil => exact List.Chain.nil
  | cons v vs ih =>
    cases v with
    | BUG => exact List.Chain.cons (Nat.le_succ acc) (ih (acc + 1))
    | notBUG => exact List.Chain.cons (le_refl acc) (ih acc)

theorem bugCountsFrom_pairwise (vs : List Verdict) :
    (bugCountsFrom vs 0).Pairwise (· ≤ ·) := by
  cases vs with
  | nil => exact List.Pairwise.nil
  | cons v vs =>
    have h := bugCountsFrom_chain (v :: vs) 0
    exact (List.chain_iff_pairwise.mp h).of_cons

theorem bugCountsFrom_getLast (vs : List Verdict) :
    (bugCountsFrom vs 0).getLast?.getD 0 = vs.count Verdict.BUG := by
  cases hv : vs with
  | nil => rfl
  | cons v rest =>
    have hlen : (bugCountsFrom (v :: rest) 0).length = rest.length + 1 := by
      simp [bugCountsFrom_length]
    have hlt : rest.length < (v :: rest).length := by simp
    have hget := bugCountsFrom_get? (v :: rest) 0 rest.length hlt
    have htake : ((v :: rest).take (rest.length + 1)) = v :: rest := by
      simp
    rw [List.getLast?_eq_get?, hlen]
    simp only [Nat.add_sub_cancel]
    rw [hget, htake]
    simp

/-! Claim theorems. -/

/-- C1: for every record in the validated, ordered sequence, the
coverage-growth output value equals the record's own `new_cov / 100`
exactly (not re-derived from increments), and the series has one value
per record at the same position, preserving the input order. -/
theorem claim_C1 (seeds : List SeedRecord) :
    (coverageGrowthValues seeds).length = seeds.length ∧
    ∀ (i : Nat) (s : SeedRecord) (bp : Int), seeds.get? i = some s →
      s.new_cov = some bp →
      (coverageGrowthValues seeds).get? i = some ((bp : ℚ) / 100) := by
  constructor
  · simp [coverageGrowthValues]
  · intro i s bp hs hbp
    rw [coverageGrowthValues, List.get?_map, hs]
    simp [basis_points_to_percent, hbp]

/-- C1 witness: the single-record list `[recB]` (with `new_cov` 5000 bp)
yields the coverage value 50%. -/
theorem claim_C1_witness :
    ([recB] : List SeedRecord).get? 0 = some recB ∧
    recB.new_cov = some 5000 ∧
    (coverageGrowthValues [recB]).get? 0 = some ((5000 : ℚ) / 100) :=
  ⟨rfl, rfl, (claim_C1 [recB]).2 0 recB 5000 rfl rfl⟩

/-- C2: the cumulative bug series has one value per input record, is
non-decreasing, each value is the count of BUG verdicts among the first
records (so the total increments by 1 exactly at BUG records), its final
element is the total BUG count, and the spec's concrete scenario yields
bug series [(0,0), (1,1), (2,2)] with total 2. -/
theorem claim_C2 :
    (∀ (vs : List Verdict) (acc : Nat),
      (bugCountsFrom vs acc).length = vs.length) ∧
    (∀ vs : List Verdict, (bugCountsFrom vs 0).Pairwise (· ≤ ·)) ∧
    (∀ (vs : List Verdict) (i : Nat), i < vs.length →
      (bugCountsFrom vs 0).get? i =
        some ((vs.take (i + 1)).count Verdict.BUG)) ∧
    (∀ (vs : List Verdict) (i a b : Nat) (v : Verdict),
      (bugCountsFrom vs 0).get? i = some a →
      (bugCountsFrom vs 0).get? (i + 1) = some b →
      vs.get? (i + 1) = some v →
      b = if v = Verdict.BUG then a + 1 else a) ∧
    (∀ vs : List Verdict,
      (bugCountsFrom vs 0).getLast?.getD 0 = vs.count Verdict.BUG) ∧
    bug_series scenarioSeeds = [(0, 0), (1, 1), (2, 2)] ∧
    total_bugs scenarioSeeds = 2 := by
  refine ⟨bugCountsFrom_length, bugCountsFrom_pairwise, ?_, ?_,
    bugCountsFrom_getLast, by decide, by decide⟩
  · intro vs i h
    simpa using bugCountsFrom_get? vs 0 i h
  · intro vs i a b v ha hb hv
    have hlt1 : i + 1 < vs.length := by
      rcases List.get?_eq_some.mp hb with ⟨hlen, _⟩
      rwa [bugCountsFrom_length] at hlen
    have hlt0 : i < vs.length := by omega
    have ha2 := bugCountsFrom_get? vs 0 i hlt0
    have hb2 := bugCountsFrom_get? vs 0 (i + 1) hlt1
    rw [ha] at ha2
    rw [hb] at hb2
    have htake : vs.take (i + 1 + 1) = vs.take (i + 1) ++ [v] := by
      rw [List.take_succ]
      have : vs[i + 1]? = some v := by
        rw [← List.get?_eq_getElem?]
        exact hv
      rw [this]
      rfl
    rw [htake, List.count_append] at hb2
    have ha3 : a = (vs.take (i + 1)).count Verdict.BUG := by
      simpa using ha2
    have hb3 : b = (vs.take (i + 1)).count Verdict.BUG
        + ([v].count Verdict.BUG) := by
      simpa using hb2
    cases v <;> simp [List.count_cons] at hb3 ⊢ <;> omega

/-- C2 witness: for verdicts [not-BUG, BUG] the series value at index 1
is the BUG count of the first two records, namely 1. -/
theorem claim_C2_witness :
    1 < ([Verdict.notBUG, Verdict.BUG] : List Verdict).length ∧
    (bugCountsFrom [Verdict.notBUG, Verdict.BUG] 0).get? 1 = some 1 := by
  refine ⟨by decide, ?_⟩
  have h := claim_C2.2.2.1 [Verdict.notBUG, Verdict.BUG] 1 (by decide)
  simpa using h

/-- C3 counterexample: two candidates from different files both carry
id 3, yet both survive into the validated sequence and no warning at all
(in particular no DuplicateId) is recorded — the claimed deduplication
does not happen. -/
theorem claim_C3_counterexample :
    load_seed_metadata dupFiles = .ok ([recA, recB], []) ∧
    recA.id = some 3 ∧ recB.id = some 3 ∧ recA ≠ recB :=
  ⟨rfl, rfl, rfl, by decide⟩

/-- C3 amended: candidates sharing an id are all kept — the validated
sequence is a permutation of every successfully decoded dict record
(duplicate ids included), and every emitted warning is a parse-failure
warning, never a DuplicateId. -/
theorem claim_C3 (files : List (String × FileContent))
    (rs : List SeedRecord) (ws : List Warning)
    (h : load_seed_metadata files = .ok (rs, ws)) :
    rs.Perm (decodedRecords files) ∧
    ∀ w ∈ ws, ∃ n, w = Warning.ParseFailure n := by
  rcases load_seed_metadata_ok h with ⟨hrs, hws⟩
  subst hrs
  subst hws
  exact ⟨perm_sortByKey _ _, collectCandidates_snd_parse files⟩

/-- C3 witness: on the duplicate-id input both records survive. -/
theorem claim_C3_witness :
    load_seed_metadata dupFiles = .ok ([recA, recB], []) ∧
    ([recA, recB] : List SeedRecord).Perm (decodedRecords dupFiles) :=
  ⟨rfl, (claim_C3 dupFiles [recA, recB] [] rfl).1⟩

/-- C4 counterexample: a candidate record with no `id` field survives
into the validated sequence with no warning — it is neither discarded
nor flagged, contradicting the claim that every validated record carries
a valid id. -/
theorem claim_C4_counterexample :
    load_seed_metadata noIdFiles = .ok ([recNoId], []) ∧ recNoId.id = none :=
  ⟨rfl, rfl⟩

/-- C4 amended: a candidate missing `id` is silently retained: every
decoded dict record (id or not) appears in the validated sequence, the
only warnings are parse failures, and the missing id is silently
defaulted to sort key 0. -/
theorem claim_C4 (files : List (String × FileContent))
    (rs : List SeedRecord) (ws : List Warning)
    (h : load_seed_metadata files = .ok (rs, ws)) :
    (∀ r ∈ decodedRecords files, r ∈ rs) ∧
    (∀ w ∈ ws, ∃ n, w = Warning.ParseFailure n) ∧
    (∀ r : SeedRecord, r.id = none → idKey r = 0) := by
  rcases load_seed_metadata_ok h with ⟨hrs, hws⟩
  subst hrs
  subst hws
  refine ⟨?_, collectCandidates_snd_parse files, ?_⟩
  · intro r hr
    exact (perm_sortByKey idKey (decodedRecords files)).mem_iff.mpr hr
  · intro r hr
    simp [idKey, hr]

/-- C4 witness: the id-less record is in the validated output. -/
theorem claim_C4_witness :
    load_seed_metadata noIdFiles = .ok ([recNoId], []) ∧
    recNoId ∈ ([recNoId] : List SeedRecord) := by
  refine ⟨rfl, ?_⟩
  have h := (claim_C4 noIdFiles [recNoId] [] rfl).1 recNoId (by decide)
  exact h

/-- C5 counterexample: the same multiset of (filename, record) pairs in
two enumeration orders produces two different validated sequences — with
tied ids the output is not a function of the set of pairs. -/
theorem claim_C5_counterexample :
    dupFilesRev.Perm dupFiles ∧
    load_seed_metadata dupFiles = .ok ([recA, recB], []) ∧
    load_seed_metadata dupFilesRev = .ok ([recB, recA], []) ∧
    ([recA, recB] : List SeedRecord) ≠ [recB, recA] :=
  ⟨by decide, rfl, rfl, by decide⟩

/-- C5 amended: the validated sequence is sorted by ascending id with a
missing id defaulting to 0, and the sort is stable: records with any
given id key keep their relative enumeration order, so ties are broken
by directory enumeration order, not by filename. -/
theorem claim_C5 (files : List (String × FileContent))
    (rs : List SeedRecord) (ws : List Warning)
    (h : load_seed_metadata files = .ok (rs, ws)) :
    rs.Pairwise (fun a b => idKey a ≤ idKey b) ∧
    ∀ k : Int, rs.filter (fun r => idKey r == k) =
      (decodedRecords files).filter (fun r => idKey r == k) := by
  rcases load_seed_metadata_ok h with ⟨hrs, _⟩
  subst hrs
  exact ⟨pairwise_sortByKey idKey (decodedRecords files),
    fun k => filter_sortByKey idKey k (decodedRecords files)⟩

/-- C5 witness: the duplicate-id output is sorted by id key. -/
theorem claim_C5_witness :
    load_seed_metadata dupFiles = .ok ([recA, recB], []) ∧
    ([recA, recB] : List SeedRecord).Pairwise (fun a b => idKey a ≤ idKey b) :=
  ⟨rfl, (claim_C5 dupFiles [recA, recB] [] rfl).1⟩

/-- C6: with a missing global-state record the pipeline exits with code 1
and no report, without reading any per-seed file; an unparsable
global-state record likewise aborts with exit code 1 (uncaught
JSONDecodeError) and no report. -/
theorem claim_C6 (md : Bool) (files : List (String × FileContent)) :
    runMain true GsFile.absent md files =
      ⟨1, false, none⟩ ∧
    (runMain true GsFile.unparsable md files).exitCode = 1 ∧
    (runMain true GsFile.unparsable md files).report = none :=
  ⟨rfl, rfl, rfl⟩

/-- C7 counterexample: with `last_allocated_id = 5` in the global state
and one validated record, the summary reports `total_seeds = 5`, not the
record count 1. -/
theorem claim_C7_counterexample :
    (summaryOf gsDemo [recA]).total_seeds = 5 ∧
    ([recA] : List SeedRecord).length = 1 ∧ (5 : Int) ≠ 1 :=
  ⟨rfl, rfl, by decide⟩

/-- C7 amended: the summary's `total_seeds` is
`global_state.last_allocated_id`, falling back to the record count only
when that field is absent; final coverage comes from the global state's
`total_coverage / 100`; there is no bug count (the dashboard reports
seeds-with-new-coverage instead); `max_depth` bounds every record's
depth; and the initial (depth = 0) and mutated (depth > 0) counts
partition the records whenever all depths are nonnegative. -/
theorem claim_C7 (gs : GlobalState) (seeds : List SeedRecord) :
    (∀ n : Int, gs.last_allocated_id = some n →
      (summaryOf gs seeds).total_seeds = n) ∧
    (gs.last_allocated_id = none →
      (summaryOf gs seeds).total_seeds = seeds.length) ∧
    (∀ c : Int, gs.total_coverage = some c →
      (summaryOf gs seeds).final_coverage_percent = (c : ℚ) / 100) ∧
    (∀ d ∈ depthsOf seeds, d ≤ (summaryOf gs seeds).max_depth) ∧
    ((∀ d ∈ depthsOf seeds, 0 ≤ d) →
      (summaryOf gs seeds).initial_seeds + (summaryOf gs seeds).mutated_seeds
        = seeds.length) := by
  refine ⟨?_, ?_, ?_, ?_, ?_⟩
  · intro n hn
    simp [summaryOf, hn]
  · intro hn
    simp [summaryOf, hn]
  · intro c hc
    simp [summaryOf, hc, basis_points_to_percent]
  · intro d hd
    simpa [summaryOf] using le_maxDepth_of_mem hd
  · intro hnn
    have hpart := filter_zero_add_filter_pos hnn
    have hlen : (depthsOf seeds).length = seeds.length := by
      simp [depthsOf]
    simp only [summaryOf]
    omega

/-- C7 witness: with `last_allocated_id = 5` present, total_seeds is 5. -/
theorem claim_C7_witness :
    gsDemo.last_allocated_id = some 5 ∧
    (summaryOf gsDemo [recA]).total_seeds = 5 :=
  ⟨rfl, (claim_C7 gsDemo [recA]).1 5 rfl⟩

/-- C8 counterexample: on an input whose derived final coverage (50%)
disagrees with the global `total_coverage` (74.74%), the run still exits
0 and produces a report whose warning list is empty — no
ConsistencyMismatch warning is recorded despite the disagreement. -/
theorem claim_C8_counterexample :
    finalCoverageOf [recA, recB] ≠
      basis_points_to_percent (gsDemo.total_coverage.getD 0) ∧
    (runMain true (.parsed gsDemo) true dupFiles).exitCode = 0 ∧
    (runMain true (.parsed gsDemo) true dupFiles).report =
      some (reportOf gsDemo [recA, recB] []) ∧
    (reportOf gsDemo [recA, recB] []).warnings = [] := by
  refine ⟨?_, rfl, rfl, rfl⟩
  norm_num [finalCoverageOf, recA, recB, gsDemo, basis_points_to_percent]

/-- C8 amended: `main` computes the derived final coverage and the
global total but never compares them: any warning in a produced report
is a parse-failure warning (a ConsistencyMismatch is never recorded),
and whenever a report is produced the exit code is 0 — so a
disagreement indeed never blocks the report, but only because no check
exists. -/
theorem claim_C8 (dd : Bool) (gsf : GsFile) (md : Bool)
    (files : List (String × FileContent)) (r : Report)
    (h : (runMain dd gsf md files).report = some r) :
    (∀ w ∈ r.warnings, ∃ n, w = Warning.ParseFailure n) ∧
    (runMain dd gsf md files).exitCode = 0 := by
  cases dd with
  | false => simp [runMain] at h
  | true =>
    cases gsf with
    | absent => simp [runMain, load_global_state] at h
    | unparsable => simp [runMain, load_global_state] at h
    | parsed gs =>
      cases md with
      | false => simp [runMain, load_global_state] at h
      | true =>
        rcases hl : load_seed_metadata files with e | pr
        · simp [runMain, load_global_state, hl] at h
        · rcases pr with ⟨seeds, ws⟩
          by_cases he : seeds.isEmpty
          · simp [runMain, load_global_state, hl, he] at h
          · by_cases hid : seeds.all (fun s => s.id.isSome)
            · have hr : r = reportOf gs seeds ws := by
                simp [runMain, load_global_state, hl, he, hid] at h
                exact h.symm
              subst hr
              constructor
              · intro w hw
                have hws := (load_seed_metadata_ok hl).2
                simp only [reportOf] at hw
                rw [hws] at hw
                exact collectCandidates_snd_parse files w hw
              · simp [runMain, load_global_state, hl, he, hid]
            · simp [runMain, load_global_state, hl, he, hid] at h

/-- C8 witness: the mismatch input produces a report and exit code 0. -/
theorem claim_C8_witness :
    (runMain true (.parsed gsDemo) true dupFiles).report =
      some (reportOf gsDemo [recA, recB] []) ∧
    (runMain true (.parsed gsDemo) true dupFiles).exitCode = 0 :=
  ⟨rfl, (claim_C8 true (.parsed gsDemo) true dupFiles
    (reportOf gsDemo [recA, recB] []) rfl).2⟩

/-- C9: the depth histogram groups the validated records by depth value
(each entry's count is the multiplicity of that depth), and the counts
sum exactly to the number of records. -/
theorem claim_C9 (seeds : List SeedRecord) :
    ((depthHistogram seeds).map Prod.snd).sum = seeds.length ∧
    ∀ p ∈ depthHistogram seeds, p.2 = (depthsOf seeds).count p.1 := by
  constructor
  · have h1 : (depthHistogram seeds).map Prod.snd =
        (sortByKey (fun d => d) (depthsOf seeds).dedup).map
          (fun d => (depthsOf seeds).count d) := by
      simp [depthHistogram, List.map_map]
    rw [h1]
    have h2 := ((perm_sortByKey (fun d => d) (depthsOf seeds).dedup).map
      (fun d => (depthsOf seeds).count d)).sum_eq
    rw [h2, sum_dedup_count]
    simp [depthsOf]
  · intro p hp
    simp only [depthHistogram, List.mem_map] at hp
    rcases hp with ⟨d, _, rfl⟩
    rfl

/-- C9 witness: the scenario records have depths [0, 1, 1]; the
histogram counts sum to 3 and the entry for depth 1 counts 2. -/
theorem claim_C9_witness :
    ((depthHistogram scenarioSeeds).map Prod.snd).sum = scenarioSeeds.length ∧
    ((1 : Int), (2 : Nat)) ∈ depthHistogram scenarioSeeds ∧
    ((1 : Int), (2 : Nat)).2 = (depthsOf scenarioSeeds).count ((1 : Int), (2 : Nat)).1 :=
  ⟨(claim_C9 scenarioSeeds).1, by decide,
    (claim_C9 scenarioSeeds).2 (1, 2) (by decide)⟩

/-- C10: per-file recovery covers only JSON decode failures — every
successfully decoded value is appended to the candidate list whether or
not it is an object, warnings correspond exactly to decode failures, and
an input whose file holds valid non-object JSON (such as `5`) makes the
id-keyed sort raise an uncaught AttributeError, aborting the loader. -/
theorem claim_C10 :
    (∀ (files : List (String × FileContent)) (name : String),
      (name, FileContent.valid JsonVal.nonObj) ∈ files →
        JsonVal.nonObj ∈ (collectCandidates files).1 ∧
        load_seed_metadata files = .error PyError.attributeError) ∧
    (∀ files : List (String × FileContent),
      (collectCandidates files).2.length =
        (files.filter (fun f => f.2 == FileContent.malformed)).length) ∧
    collectCandidates nonObjFiles = ([JsonVal.nonObj], []) ∧
    load_seed_metadata nonObjFiles = .error PyError.attributeError := by
  refine ⟨?_, collectCandidates_snd_length, rfl, rfl⟩
  intro files name h
  have hmem := mem_collectCandidates_of_valid h
  refine ⟨hmem, ?_⟩
  unfold load_seed_metadata
  rw [asRecords_eq_none_of_nonObj hmem]

/-- C10 witness: the concrete one-file non-object input is appended and
aborts the loader. -/
theorem claim_C10_witness :
    ("m.json", FileContent.valid JsonVal.nonObj) ∈ nonObjFiles ∧
    (JsonVal.nonObj ∈ (collectCandidates nonObjFiles).1 ∧
      load_seed_metadata nonObjFiles = .error PyError.attributeError) :=
  ⟨List.Mem.head _,
    claim_C10.1 nonObjFiles "m.json" (List.Mem.head _)⟩

end DeFuzz

